import Mathlib

/-!
Verification development for the assetra resource-adequacy engine.

The repository ships the engine as a library (`assetra.units`, `assetra.system`,
`assetra.simulation`, `assetra.metrics`, `assetra.contribution`) whose callers
are the two example notebooks; the library modules themselves are not among the
given source files, so the definitions below that embed them are modelled from
the specification (each such definition says so in its doc comment).  The one
piece of genuine source code embedded here is the notebook helper
`get_hourly_risk`.
-/

namespace Assetra

/-- Modelled from the spec (section 4.2 and section 3): the `StorageUnit`
record of `assetra.units`, which is absent from the provided sources.  All
quantities are MW / MWh as reals. -/
structure StorageUnit where
  id : Nat
  nameplate_capacity : Real
  charge_rate : Real
  discharge_rate : Real
  charge_capacity : Real
  roundtrip_efficiency : Real

/-- Modelled from the spec (section 3 invariants): the numeric invariants a
storage unit must satisfy. -/
def validStorage (u : StorageUnit) : Prop :=
  0 ≤ u.charge_rate ∧ 0 ≤ u.discharge_rate ∧ 0 ≤ u.charge_capacity ∧
    0 < u.roundtrip_efficiency ∧ u.roundtrip_efficiency ≤ 1

/-- Modelled from the spec (section 4.2): one hour of storage dispatch.
Given the state of charge `soc` and the incoming pre-storage net capacity `n`,
returns `(contribution, new state of charge)`.  Round-trip efficiency is split
symmetrically: each leg applies `√roundtrip_efficiency`. -/
noncomputable def storageStep (u : StorageUnit) (soc n : Real) : Real × Real :=
  let s := Real.sqrt u.roundtrip_efficiency
  if 0 ≤ n then
    if soc < u.charge_capacity then
      let charged := min n (min u.charge_rate (u.charge_capacity - soc))
      (-charged, soc + charged * s)
    else (0, soc)
  else
    if 0 < soc then
      let discharged := min (-n) (min u.discharge_rate (soc * s))
      (discharged, soc - discharged / s)
    else (0, soc)

/-- Modelled from the spec (section 4.2): the post-storage net profile obtained
by integrating the state of charge forward across the hour axis of one trial
(initial state of charge is passed explicitly; the simulator starts at 0). -/
noncomputable def storagePosts (u : StorageUnit) (soc : Real) : List Real → List Real
  | [] => []
  | n :: ns => (n + (storageStep u soc n).1) :: storagePosts u (storageStep u soc n).2 ns

/-- Modelled from the spec (section 4.2): the per-hour storage contributions. -/
noncomputable def storageContribs (u : StorageUnit) (soc : Real) : List Real → List Real
  | [] => []
  | n :: ns => (storageStep u soc n).1 :: storageContribs u (storageStep u soc n).2 ns

/-- Modelled from the spec (section 4.2): the state of charge after each hour. -/
noncomputable def storageSocs (u : StorageUnit) (soc : Real) : List Real → List Real
  | [] => []
  | n :: ns => (storageStep u soc n).2 :: storageSocs u (storageStep u soc n).2 ns

/-- Modelled from the spec (section 4.2): the state of charge at the end of the
window. -/
noncomputable def storageFinalSoc (u : StorageUnit) (soc : Real) : List Real → Real
  | [] => soc
  | n :: ns => storageFinalSoc u (storageStep u soc n).2 ns

/-- Total energy charged into the unit (measured at the bus) over a window. -/
noncomputable def totalCharged (u : StorageUnit) (soc : Real) (p : List Real) : Real :=
  ((storageContribs u soc p).map (fun c => max 0 (-c))).sum

/-- Total energy discharged at the bus over a window. -/
noncomputable def totalDischarged (u : StorageUnit) (soc : Real) (p : List Real) : Real :=
  ((storageContribs u soc p).map (fun c => max 0 c)).sum

/-- The storage unit of scenarios S3/S4 of the spec, with the round-trip
efficiency 0.5 of scenario S4. -/
noncomputable def s4StorageUnit : StorageUnit :=
  { id := 0
    nameplate_capacity := 100
    charge_rate := 100
    discharge_rate := 100
    charge_capacity := 100
    roundtrip_efficiency := 1/2 }

/-- Modelled from the spec (section 3): the `DemandUnit` record of
`assetra.units`, absent from the provided sources.  Its hourly demand series is
kept relative to the simulation window (entry `h` is the demand in window hour
`h`). -/
structure DemandUnit where
  id : Nat
  hourly_demand : List Real

/-- Modelled from the spec (section 3): the `StaticUnit` record of
`assetra.units`, absent from the provided sources. -/
structure StaticUnit where
  id : Nat
  nameplate_capacity : Real
  hourly_capacity : List Real

/-- Modelled from the spec (section 3): the `StochasticUnit` record of
`assetra.units`, absent from the provided sources. -/
structure StochasticUnit where
  id : Nat
  nameplate_capacity : Real
  hourly_capacity : List Real
  hourly_forced_outage_rate : List Real

/-- Modelled from the spec (sections 3 and 9): the closed set of unit kinds as
a tagged variant. -/
inductive EnergyUnit where
  | demand (u : DemandUnit)
  | static (u : StaticUnit)
  | stochastic (u : StochasticUnit)
  | storage (u : StorageUnit)

/-- The unique integer id of a unit. -/
def unitId : EnergyUnit → Nat
  | .demand u => u.id
  | .static u => u.id
  | .stochastic u => u.id
  | .storage u => u.id

/-- Modelled from the spec (sections 3 and 4.7): nameplate capacity counted
towards `system_capacity` and the ELCC bisection bound; demand units count 0
(the sum is over non-demand units). -/
def nameplateOf : EnergyUnit → Real
  | .demand _ => 0
  | .static u => u.nameplate_capacity
  | .stochastic u => u.nameplate_capacity
  | .storage u => u.nameplate_capacity

/-- Modelled from the spec (sections 4.3 and 5): a counter-based pseudo-random
mixing function keyed by `(seed, unit id, hour, trial)`.  The spec leaves the
concrete scheme open; this is one reproducible instantiation. -/
def prngMix (seed uid h t : Nat) : Nat :=
  (((seed + 1) * 2654435761 + uid) * 2654435761 + h) * 2654435761 + t

/-- Modelled from the spec (section 4.3): the uniform draw in `[0,1)` used for
outage sampling. -/
noncomputable def sampleUniform (seed uid h t : Nat) : Real :=
  ((prngMix seed uid h t % 4294967296 : Nat) : Real) / 4294967296

/-- Modelled from the spec (sections 3 and 4.5): the context-free contribution
of a unit in window hour `h` of trial `t`.  A stochastic unit is available iff
its uniform draw is at least its forced outage rate; storage contributes later
(section 4.1). -/
noncomputable def unitContribution (seed t h : Nat) : EnergyUnit → Real
  | .demand u => -(u.hourly_demand.getD h 0)
  | .static u => u.hourly_capacity.getD h 0
  | .stochastic u =>
      if u.hourly_forced_outage_rate.getD h 0 ≤ sampleUniform seed u.id h t then
        u.hourly_capacity.getD h 0
      else 0
  | .storage _ => 0

/-- Modelled from the spec (section 4.1): the pre-storage net capacity profile
of one trial, the sum of all context-free contributions per hour. -/
noncomputable def preStorageColumn (sys : List EnergyUnit) (seed t H : Nat) : List Real :=
  (List.range H).map (fun h => (sys.map (unitContribution seed t h)).sum)

/-- The storage units of a system, in system order. -/
def storageUnitsOf (sys : List EnergyUnit) : List StorageUnit :=
  sys.filterMap (fun u =>
    match u with
    | .storage su => some su
    | _ => none)

/-- Insert a storage unit into a list sorted by ascending id. -/
def insertById (s : StorageUnit) : List StorageUnit → List StorageUnit
  | [] => [s]
  | t :: ts => if s.id ≤ t.id then s :: t :: ts else t :: insertById s ts

/-- Modelled from the spec (section 4.2): storage units are dispatched in a
stable order by ascending id. -/
def sortById (l : List StorageUnit) : List StorageUnit :=
  l.foldr insertById []

/-- Modelled from the spec (section 4.5 step 4): dispatch the storage units in
order against the in-progress net profile of one trial; each unit sees the
profile updated by the units dispatched before it, starting from an empty
state of charge. -/
noncomputable def dispatchStorages (units : List StorageUnit) (col : List Real) : List Real :=
  units.foldl (fun c u => storagePosts u 0 c) col

/-- Modelled from the spec (section 4.5): the simulation configuration. -/
structure SimulationConfig where
  start_hour : Nat
  end_hour : Nat
  trial_size : Nat
  seed : Nat

/-- Number of hours in the simulation window. -/
def numHours (cfg : SimulationConfig) : Nat :=
  cfg.end_hour - cfg.start_hour

/-- Modelled from the spec (section 4.5): the net hourly capacity column of one
trial. -/
noncomputable def simulationColumn (sys : List EnergyUnit) (seed t H : Nat) : List Real :=
  dispatchStorages (sortById (storageUnitsOf sys)) (preStorageColumn sys seed t H)

/-- Modelled from the spec (section 4.5): `ProbabilisticSimulation.run`; the
net hourly capacity matrix, represented as the list of trial columns (the
`(time, trial)` matrix stored one trial column at a time). -/
noncomputable def runSimulation (sys : List EnergyUnit) (cfg : SimulationConfig) :
    List (List Real) :=
  (List.range cfg.trial_size).map
    (fun t => simulationColumn sys cfg.seed t (numHours cfg))

/-- All storage units of a system satisfy the spec's section 3 invariants. -/
def ValidSystem (sys : List EnergyUnit) : Prop :=
  ∀ su ∈ storageUnitsOf sys, validStorage su

/-- Shortfall test of the spec (section 4.6): an hour is a shortfall exactly
when its net capacity is strictly negative. -/
noncomputable def isShort (x : Real) : Bool :=
  if x < 0 then true else false

/-- Modelled from the spec (section 4.6): mean over trials of a per-trial
reduction. -/
noncomputable def trialMean (f : List Real → Real) (M : List (List Real)) : Real :=
  ((M.map f).sum) / (M.length : Real)

/-- Unserved energy of one trial column: the sum over hours of
`max 0 (-net capacity)`. -/
noncomputable def unservedEnergy (col : List Real) : Real :=
  (col.map (fun x => max 0 (-x))).sum

/-- Modelled from the spec (section 4.6): `assetra.metrics.ExpectedUnservedEnergy`,
absent from the provided sources. -/
noncomputable def expectedUnservedEnergy (M : List (List Real)) : Real :=
  trialMean unservedEnergy M

/-- Number of shortfall hours in one trial column. -/
noncomputable def lossHours (col : List Real) : Nat :=
  col.countP isShort

/-- Modelled from the spec (section 4.6): `assetra.metrics.LossOfLoadHours`,
absent from the provided sources. -/
noncomputable def lossOfLoadHours (M : List (List Real)) : Real :=
  trialMean (fun col => (lossHours col : Real)) M

/-- The calendar days (relative to the absolute start hour) that contain at
least one shortfall hour of one trial column. -/
noncomputable def shortfallDays (start : Nat) (col : List Real) : Finset Nat :=
  ((Finset.range col.length).filter (fun h => col.getD h 0 < 0)).image
    (fun h => (start + h) / 24)

/-- Modelled from the spec (section 4.6): `assetra.metrics.LossOfLoadDays`,
absent from the provided sources; hours are grouped into calendar days by the
absolute hour index. -/
noncomputable def lossOfLoadDays (start : Nat) (M : List (List Real)) : Real :=
  trialMean (fun col => ((shortfallDays start col).card : Real)) M

/-- Count of maximal runs of `true` entries, given the flag of the previous
entry. -/
def runStarts (prev : Bool) : List Bool → Nat
  | [] => 0
  | b :: bs => (if b = true ∧ prev = false then 1 else 0) + runStarts b bs

/-- Number of loss-of-load events (maximal runs of consecutive shortfall
hours) in one trial column. -/
noncomputable def lossEvents (col : List Real) : Nat :=
  runStarts false (col.map isShort)

/-- Modelled from the spec (section 4.6): `assetra.metrics.LossOfLoadFrequency`,
absent from the provided sources. -/
noncomputable def lossOfLoadFrequency (M : List (List Real)) : Real :=
  trialMean (fun col => (lossEvents col : Real)) M

/-- Modelled from the spec (section 7): the builder error kinds relevant to the
claims. -/
inductive BuilderError where
  | duplicateId
  | unknownId
deriving DecidableEq

/-- Modelled from the spec (section 4.4): `EnergySystemBuilder.add_unit`,
absent from the provided sources.  Returns the outcome together with the
builder state after the call. -/
def add_unit (b : List EnergyUnit) (u : EnergyUnit) :
    Except BuilderError Unit × List EnergyUnit :=
  if b.any (fun v => unitId v = unitId u) then (.error .duplicateId, b)
  else (.ok (), b ++ [u])

/-- Modelled from the spec (section 4.4): `EnergySystemBuilder.remove_unit`,
absent from the provided sources. -/
def remove_unit (b : List EnergyUnit) (i : Nat) :
    Except BuilderError Unit × List EnergyUnit :=
  if b.any (fun v => unitId v = i) then (.ok (), b.filter (fun v => unitId v ≠ i))
  else (.error .unknownId, b)

/-- Modelled from the spec (section 6): one persisted unit record — a kind tag,
the unit id, the scalar attributes and the time-series blobs. -/
structure SavedUnit where
  kind : Nat
  uid : Nat
  scalars : List Real
  series : List (List Real)

/-- Modelled from the spec (section 6): a saved system directory — a manifest
version plus one record per unit. -/
structure SavedSystem where
  version : Nat
  units : List SavedUnit

/-- Modelled from the spec (section 6): serialize one unit. -/
def saveUnit : EnergyUnit → SavedUnit
  | .demand u => ⟨0, u.id, [], [u.hourly_demand]⟩
  | .static u => ⟨1, u.id, [u.nameplate_capacity], [u.hourly_capacity]⟩
  | .stochastic u =>
      ⟨2, u.id, [u.nameplate_capacity], [u.hourly_capacity, u.hourly_forced_outage_rate]⟩
  | .storage u =>
      ⟨3, u.id,
        [u.nameplate_capacity, u.charge_rate, u.discharge_rate, u.charge_capacity,
          u.roundtrip_efficiency], []⟩

/-- Modelled from the spec (section 6): parse one persisted unit record;
corrupted records fail. -/
def loadUnit (r : SavedUnit) : Option EnergyUnit :=
  match r.kind, r.scalars, r.series with
  | 0, [], [d] => some (.demand ⟨r.uid, d⟩)
  | 1, [np], [c] => some (.static ⟨r.uid, np, c⟩)
  | 2, [np], [c, o] => some (.stochastic ⟨r.uid, np, c, o⟩)
  | 3, [np, cr, dr, cc, eff], [] => some (.storage ⟨r.uid, np, cr, dr, cc, eff⟩)
  | _, _, _ => none

/-- Modelled from the spec (section 6): `EnergySystem.save`. -/
def saveSystem (sys : List EnergyUnit) : SavedSystem :=
  ⟨1, sys.map saveUnit⟩

/-- Modelled from the spec (section 6): `EnergySystem.load`; an incompatible
manifest version or a corrupted record fails. -/
def loadSystem (s : SavedSystem) : Option (List EnergyUnit) :=
  if s.version = 1 then s.units.mapM loadUnit else none

/-- Modelled from the spec (section 4.7): sum of non-demand nameplate
capacities of the additional system — the upper bisection bound. -/
noncomputable def additionalNameplate (sys : List EnergyUnit) : Real :=
  (sys.map nameplateOf).sum

/-- Modelled from the spec (section 4.7): the system extended by a constant
demand of `c` MW across the simulation window. -/
noncomputable def withConstantDemand (sys : List EnergyUnit) (cfg : SimulationConfig)
    (c : Real) : List EnergyUnit :=
  sys ++ [.demand ⟨0, List.replicate (numHours cfg) c⟩]

/-- Modelled from the spec (section 4.7): the metric of the combined system
with an added constant demand `c`, re-simulated with the template
configuration (hence the same seed at every iteration). -/
noncomputable def elccMetric (metric : List (List Real) → Real)
    (base additional : List EnergyUnit) (cfg : SimulationConfig) (c : Real) : Real :=
  metric (runSimulation (withConstantDemand (base ++ additional) cfg c) cfg)

/-- Modelled from the spec (section 4.7 steps 4 and 5): the bisection loop on
added constant demand. -/
noncomputable def elccBisect (f : Real → Real) (baseMetric tol prec : Real) :
    Nat → Real → Real → Real
  | 0, lo, hi => (lo + hi) / 2
  | n + 1, lo, hi =>
      if hi - lo ≤ prec then (lo + hi) / 2
      else
        if baseMetric + tol < f ((lo + hi) / 2) then
          elccBisect f baseMetric tol prec n lo ((lo + hi) / 2)
        else
          if f ((lo + hi) / 2) < baseMetric - tol then
            elccBisect f baseMetric tol prec n ((lo + hi) / 2) hi
          else (lo + hi) / 2

/-- Modelled from the spec (section 4.7): `EffectiveLoadCarryingCapability.evaluate`,
absent from the provided sources.  The bisection starts from `lo = 0` and
`hi = additionalNameplate additional`; if the combined metric at `hi` is still
at most the base metric, `hi` itself is returned. -/
noncomputable def elccEvaluate (base : List EnergyUnit) (cfg : SimulationConfig)
    (metric : List (List Real) → Real) (tol prec : Real) (maxIters : Nat)
    (additional : List EnergyUnit) : Real :=
  if elccMetric metric base additional cfg (additionalNameplate additional) ≤
      metric (runSimulation base cfg) then
    additionalNameplate additional
  else
    elccBisect (elccMetric metric base additional cfg) (metric (runSimulation base cfg))
      tol prec maxIters 0 (additionalNameplate additional)

/-- Source embedding of the notebook helper `get_hourly_risk`
(`src/unnamed/part_000`): negate the shortfall entries of the net hourly
capacity matrix (non-shortfall entries become missing and are skipped by the
sum, which is the same as contributing `max 0 (-x)`), sum across the trial
dimension and divide by the size of the trial dimension. -/
noncomputable def get_hourly_risk (M : List (List Real)) : List Real :=
  (List.range (M.headD []).length).map
    (fun h => ((M.map (fun col => max 0 (-(col.getD h 0)))).sum) / (M.length : Real))

/-! Helper lemmas about `min`, `max` and the square-root efficiency factor. -/

lemma sub_min_eq_max (a b c : Real) : a - min b c = max (a - b) (a - c) := by
  rcases le_total b c with h | h
  · rw [min_eq_left h, max_eq_left (by linarith)]
  · rw [min_eq_right h, max_eq_right (by linarith)]

lemma add_min3 (a b c d : Real) :
    a + min b (min c d) = min (a + b) (min (a + c) (a + d)) := by
  rw [min_add_add_left, min_add_add_left]

lemma sub_min3 (a b c d : Real) :
    a - min b (min c d) = max (a - b) (max (a - c) (a - d)) := by
  rw [sub_min_eq_max, sub_min_eq_max]

lemma min3_mul_right (b c d s : Real) (hs : 0 ≤ s) :
    min b (min c d) * s = min (b * s) (min (c * s) (d * s)) := by
  rw [min_mul_of_nonneg _ _ hs, min_mul_of_nonneg _ _ hs]

lemma min3_div_right (b c d s : Real) (hs : 0 < s) :
    min b (min c d) / s = min (b / s) (min (c / s) (d / s)) := by
  rw [← min_div_div_right hs.le, ← min_div_div_right hs.le]

lemma min3_nonneg {b c d : Real} (hb : 0 ≤ b) (hc : 0 ≤ c) (hd : 0 ≤ d) :
    0 ≤ min b (min c d) :=
  le_min hb (le_min hc hd)

lemma sqrtEff_pos {u : StorageUnit} (hu : validStorage u) :
    0 < Real.sqrt u.roundtrip_efficiency :=
  Real.sqrt_pos.mpr hu.2.2.2.1

lemma sqrtEff_le_one {u : StorageUnit} (hu : validStorage u) :
    Real.sqrt u.roundtrip_efficiency ≤ 1 :=
  Real.sqrt_le_one.mpr hu.2.2.2.2

lemma sqrtEff_mul_self {u : StorageUnit} (hu : validStorage u) :
    Real.sqrt u.roundtrip_efficiency * Real.sqrt u.roundtrip_efficiency =
      u.roundtrip_efficiency :=
  Real.mul_self_sqrt hu.2.2.2.1.le

/-! Closed forms for one hour of storage dispatch.  Under the section 3
invariants the `SoC < charge_capacity` and `SoC > 0` guards of the spec are
redundant (the corresponding `min` is then 0), which the next two lemmas
record. -/

lemma storageStep_charge {u : StorageUnit} (hr : 0 ≤ u.charge_rate) {soc n : Real}
    (hn : 0 ≤ n) (hsoc : soc ≤ u.charge_capacity) :
    storageStep u soc n =
      (-(min n (min u.charge_rate (u.charge_capacity - soc))),
        soc + min n (min u.charge_rate (u.charge_capacity - soc)) *
          Real.sqrt u.roundtrip_efficiency) := by
  unfold storageStep
  rw [if_pos hn]
  rcases lt_or_eq_of_le hsoc with h | h
  · rw [if_pos h]
  · rw [if_neg (by rw [h]; exact lt_irrefl _), h, sub_self, min_eq_right hr,
      min_eq_right hn]
    simp

lemma storageStep_discharge {u : StorageUnit} (hd : 0 ≤ u.discharge_rate) {soc n : Real}
    (hn : n < 0) (hsoc : 0 ≤ soc) :
    storageStep u soc n =
      (min (-n) (min u.discharge_rate (soc * Real.sqrt u.roundtrip_efficiency)),
        soc - min (-n) (min u.discharge_rate (soc * Real.sqrt u.roundtrip_efficiency)) /
          Real.sqrt u.roundtrip_efficiency) := by
  unfold storageStep
  rw [if_neg (not_le.mpr hn)]
  rcases lt_or_eq_of_le hsoc with h | h
  · rw [if_pos h]
  · rw [if_neg (by rw [← h]; exact lt_irrefl _), ← h, zero_mul, min_eq_right hd,
      min_eq_right (le_of_lt (neg_pos.mpr hn))]
    simp

lemma storageStep_soc_mem {u : StorageUnit} (hu : validStorage u) {soc n : Real}
    (h0 : 0 ≤ soc) (h1 : soc ≤ u.charge_capacity) :
    0 ≤ (storageStep u soc n).2 ∧ (storageStep u soc n).2 ≤ u.charge_capacity := by
  obtain ⟨hr, hd, hc, hη, hη1⟩ := hu
  have hs0 : 0 ≤ Real.sqrt u.roundtrip_efficiency := Real.sqrt_nonneg _
  have hs1 : Real.sqrt u.roundtrip_efficiency ≤ 1 := Real.sqrt_le_one.mpr hη1
  rcases le_or_lt 0 n with hn | hn
  · rw [storageStep_charge hr hn h1]
    have hch0 : 0 ≤ min n (min u.charge_rate (u.charge_capacity - soc)) :=
      min3_nonneg hn hr (by linarith)
    have hch1 : min n (min u.charge_rate (u.charge_capacity - soc)) ≤
        u.charge_capacity - soc :=
      le_trans (min_le_right _ _) (min_le_right _ _)
    constructor
    · have := mul_nonneg hch0 hs0
      dsimp only
      linarith
    · have := mul_le_of_le_one_right hch0 hs1
      dsimp only
      linarith
  · rw [storageStep_discharge hd hn h0]
    have hs : 0 < Real.sqrt u.roundtrip_efficiency := Real.sqrt_pos.mpr hη
    have hdis0 : 0 ≤ min (-n) (min u.discharge_rate (soc * Real.sqrt u.roundtrip_efficiency)) :=
      min3_nonneg (by linarith) hd (mul_nonneg h0 hs0)
    have hdis1 : min (-n) (min u.discharge_rate (soc * Real.sqrt u.roundtrip_efficiency)) ≤
        soc * Real.sqrt u.roundtrip_efficiency :=
      le_trans (min_le_right _ _) (min_le_right _ _)
    constructor
    · have : min (-n) (min u.discharge_rate (soc * Real.sqrt u.roundtrip_efficiency)) /
          Real.sqrt u.roundtrip_efficiency ≤
          soc * Real.sqrt u.roundtrip_efficiency / Real.sqrt u.roundtrip_efficiency :=
        div_le_div_of_nonneg_right hdis1 hs.le
      rw [mul_div_cancel_right₀ _ hs.ne'] at this
      dsimp only
      linarith
    · have : 0 ≤ min (-n) (min u.discharge_rate (soc * Real.sqrt u.roundtrip_efficiency)) /
          Real.sqrt u.roundtrip_efficiency := div_nonneg hdis0 hs0
      dsimp only
      linarith

lemma storageStep_mono {u : StorageUnit} (hu : validStorage u) {socp socq n₁ n₂ : Real}
    (h0p : 0 ≤ socp) (hpq : socp ≤ socq) (hqc : socq ≤ u.charge_capacity)
    (hn : n₁ ≤ n₂) :
    n₁ + (storageStep u socp n₁).1 ≤ n₂ + (storageStep u socq n₂).1 ∧
      (storageStep u socp n₁).2 ≤ (storageStep u socq n₂).2 := by
  obtain ⟨hr, hd, hc, hη, hη1⟩ := hu
  have hs : 0 < Real.sqrt u.roundtrip_efficiency := Real.sqrt_pos.mpr hη
  have hs0 : 0 ≤ Real.sqrt u.roundtrip_efficiency := hs.le
  have hs1 : Real.sqrt u.roundtrip_efficiency ≤ 1 := Real.sqrt_le_one.mpr hη1
  have hpc : socp ≤ u.charge_capacity := le_trans hpq hqc
  have h0q : 0 ≤ socq := le_trans h0p hpq
  set s := Real.sqrt u.roundtrip_efficiency with hsdef
  rcases le_or_lt 0 n₁ with hn1 | hn1
  · -- both hours are surplus hours
    have hn2 : 0 ≤ n₂ := le_trans hn1 hn
    rw [storageStep_charge hr hn1 hpc, storageStep_charge hr hn2 hqc]
    dsimp only
    constructor
    · rw [← sub_eq_add_neg, ← sub_eq_add_neg, sub_min3, sub_min3]
      exact max_le_max (by linarith) (max_le_max (by linarith) (by linarith))
    · rw [min3_mul_right _ _ _ _ hs0, min3_mul_right _ _ _ _ hs0, add_min3, add_min3]
      refine min_le_min ?_ (min_le_min ?_ ?_)
      · have := mul_le_mul_of_nonneg_right hn hs0
        linarith
      · linarith
      · nlinarith [mul_nonneg (sub_nonneg.mpr hpq) (sub_nonneg.mpr hs1)]
  · rcases le_or_lt 0 n₂ with hn2 | hn2
    · -- deficit then surplus: discharge output is nonpositive, charge output is not
      rw [storageStep_discharge hd hn1 h0p, storageStep_charge hr hn2 hqc]
      dsimp only
      have hdis0 : 0 ≤ min (-n₁) (min u.discharge_rate (socp * s)) :=
        min3_nonneg (by linarith) hd (mul_nonneg h0p hs0)
      have hch0 : 0 ≤ min n₂ (min u.charge_rate (u.charge_capacity - socq)) :=
        min3_nonneg hn2 hr (by linarith)
      constructor
      · have h1 : n₁ + min (-n₁) (min u.discharge_rate (socp * s)) ≤ 0 := by
          have := min_le_left (-n₁) (min u.discharge_rate (socp * s))
          linarith
        have h2 : 0 ≤ n₂ - min n₂ (min u.charge_rate (u.charge_capacity - socq)) := by
          have := min_le_left n₂ (min u.charge_rate (u.charge_capacity - socq))
          linarith
        linarith
      · have h1 : 0 ≤ min (-n₁) (min u.discharge_rate (socp * s)) / s :=
          div_nonneg hdis0 hs0
        have h2 : 0 ≤ min n₂ (min u.charge_rate (u.charge_capacity - socq)) * s :=
          mul_nonneg hch0 hs0
        linarith
    · -- both hours are deficit hours
      rw [storageStep_discharge hd hn1 h0p, storageStep_discharge hd hn2 h0q]
      dsimp only
      constructor
      · rw [add_min3, add_min3]
        refine min_le_min (by linarith) (min_le_min (by linarith) ?_)
        nlinarith [mul_le_mul_of_nonneg_right hpq hs0]
      · rw [min3_div_right _ _ _ _ hs, min3_div_right _ _ _ _ hs,
          mul_div_cancel_right₀ _ hs.ne', mul_div_cancel_right₀ _ hs.ne',
          sub_min3, sub_min3]
        refine max_le_max ?_ (max_le_max (by linarith) (by linarith))
        have := div_le_div_of_nonneg_right (neg_le_neg hn) hs.le
        linarith

lemma storageSocs_mem {u : StorageUnit} (hu : validStorage u) :
    ∀ (p : List Real) (soc : Real), 0 ≤ soc → soc ≤ u.charge_capacity →
      ∀ x ∈ storageSocs u soc p, 0 ≤ x ∧ x ≤ u.charge_capacity := by
  intro p
  induction p with
  | nil => intro soc _ _ x hx; simp [storageSocs] at hx
  | cons n ns ih =>
      intro soc h0 h1 x hx
      obtain ⟨h0', h1'⟩ := storageStep_soc_mem hu (n := n) h0 h1
      rw [storageSocs] at hx
      rcases List.mem_cons.mp hx with h | h
      · exact h ▸ ⟨h0', h1'⟩
      · exact ih _ h0' h1' x h

lemma storagePosts_mono {u : StorageUnit} (hu : validStorage u) :
    ∀ {p q : List Real}, List.Forall₂ (· ≤ ·) p q →
      ∀ {socp socq : Real}, 0 ≤ socp → socp ≤ socq → socq ≤ u.charge_capacity →
      List.Forall₂ (· ≤ ·) (storagePosts u socp p) (storagePosts u socq q) := by
  intro p q hpq
  induction hpq with
  | nil => intro socp socq _ _ _; exact List.Forall₂.nil
  | @cons n₁ n₂ p' q' hn _ ih =>
      intro socp socq h0 hsoc h1
      obtain ⟨hpost, hsoc'⟩ := storageStep_mono hu h0 hsoc h1 hn
      have h0' : 0 ≤ (storageStep u socp n₁).2 :=
        (storageStep_soc_mem hu h0 (le_trans hsoc h1)).1
      have h1' : (storageStep u socq n₂).2 ≤ u.charge_capacity :=
        (storageStep_soc_mem hu (le_trans h0 hsoc) h1).2
      rw [storagePosts, storagePosts]
      exact List.Forall₂.cons hpost (ih h0' hsoc' h1')

lemma storageFinalSoc_eq {u : StorageUnit} (hu : validStorage u) :
    ∀ (p : List Real) (soc : Real), 0 ≤ soc → soc ≤ u.charge_capacity →
      storageFinalSoc u soc p =
        soc + Real.sqrt u.roundtrip_efficiency * totalCharged u soc p -
          totalDischarged u soc p / Real.sqrt u.roundtrip_efficiency := by
  intro p
  induction p with
  | nil => intro soc _ _; simp [storageFinalSoc, totalCharged, totalDischarged, storageContribs]
  | cons n ns ih =>
      intro soc h0 h1
      have hs : 0 < Real.sqrt u.roundtrip_efficiency := sqrtEff_pos hu
      have hs0 : 0 ≤ Real.sqrt u.roundtrip_efficiency := hs.le
      obtain ⟨hr, hd, hc, hη, hη1⟩ := hu
      obtain ⟨h0', h1'⟩ :=
        storageStep_soc_mem ⟨hr, hd, hc, hη, hη1⟩ (n := n) h0 h1
      have hrec := ih (storageStep u soc n).2 h0' h1'
      rw [storageFinalSoc, hrec]
      simp only [totalCharged, totalDischarged, storageContribs, List.map_cons,
        List.sum_cons]
      rcases le_or_lt 0 n with hn | hn
      · rw [storageStep_charge hr hn h1]
        have hch0 : 0 ≤ min n (min u.charge_rate (u.charge_capacity - soc)) :=
          min3_nonneg hn hr (by linarith)
        dsimp only
        rw [neg_neg, max_eq_right hch0, max_eq_left (neg_nonpos_of_nonneg hch0)]
        ring
      · rw [storageStep_discharge hd hn h0]
        have hdis0 : 0 ≤
            min (-n) (min u.discharge_rate (soc * Real.sqrt u.roundtrip_efficiency)) :=
          min3_nonneg (by linarith) hd (mul_nonneg h0 hs0)
        dsimp only
        rw [max_eq_right hdis0, max_eq_left (neg_nonpos_of_nonneg hdis0)]
        ring

lemma storageFinalSoc_nonneg {u : StorageUnit} (hu : validStorage u) :
    ∀ (p : List Real) (soc : Real), 0 ≤ soc → soc ≤ u.charge_capacity →
      0 ≤ storageFinalSoc u soc p := by
  intro p
  induction p with
  | nil => intro soc h0 _; exact h0
  | cons n ns ih =>
      intro soc h0 h1
      obtain ⟨h0', h1'⟩ := storageStep_soc_mem hu (n := n) h0 h1
      rw [storageFinalSoc]
      exact ih _ h0' h1'

/-- Energy conservation for a full dispatch run starting from an empty state
of charge: discharged energy at the bus is at most charged energy times the
round-trip efficiency. -/
lemma storage_energy_conservation {u : StorageUnit} (hu : validStorage u)
    (p : List Real) :
    totalDischarged u 0 p ≤ u.roundtrip_efficiency * totalCharged u 0 p := by
  have hc : (0 : Real) ≤ u.charge_capacity := hu.2.2.1
  have hs : 0 < Real.sqrt u.roundtrip_efficiency := sqrtEff_pos hu
  have hfin := storageFinalSoc_eq hu p 0 le_rfl hc
  have hnn := storageFinalSoc_nonneg hu p 0 le_rfl hc
  rw [hfin] at hnn
  have h1 : totalDischarged u 0 p / Real.sqrt u.roundtrip_efficiency ≤
      Real.sqrt u.roundtrip_efficiency * totalCharged u 0 p := by linarith
  have h2 := (div_le_iff₀ hs).mp h1
  calc totalDischarged u 0 p ≤
      Real.sqrt u.roundtrip_efficiency * totalCharged u 0 p *
        Real.sqrt u.roundtrip_efficiency := h2
    _ = u.roundtrip_efficiency * totalCharged u 0 p := by
        rw [mul_comm (Real.sqrt u.roundtrip_efficiency) (totalCharged u 0 p),
          mul_assoc, sqrtEff_mul_self hu, mul_comm]

/-! Concrete computation of scenario S4 (round-trip efficiency 0.5,
pre-storage profile `[+100, -100, +100, -100]`). -/

lemma s4_step_charge : storageStep s4StorageUnit 0 100 = (-100, 100 * Real.sqrt (1/2)) := by
  simp [storageStep, s4StorageUnit]

lemma s4_step_discharge :
    storageStep s4StorageUnit (100 * Real.sqrt (1/2)) (-100) = (50, 0) := by
  have hs : (0:Real) < Real.sqrt (1/2) := Real.sqrt_pos.mpr (by norm_num)
  have hss : Real.sqrt (1/2) * Real.sqrt (1/2) = 1/2 := Real.mul_self_sqrt (by norm_num)
  have hd : 100 * Real.sqrt (1/2) * Real.sqrt (1/2) = 50 := by
    rw [mul_assoc, hss]; norm_num
  have hz : 100 * Real.sqrt (1/2) - 50 / Real.sqrt (1/2) = 0 := by
    rw [sub_eq_zero, eq_div_iff hs.ne', mul_assoc, hss]; norm_num
  have hmin : min (100:Real) (min 100 50) = 50 := by
    norm_num [min_def]
  simp only [storageStep, s4StorageUnit]
  rw [if_neg (by norm_num), if_pos (by positivity)]
  rw [neg_neg, hd, hmin, hz]

/-- The post-storage profile of scenario S4 under the spec's dispatch rules:
`[0, -50, 0, -50]`, not the `[+50, -50, +50, -50]` the spec's S4 narrative
states. -/
lemma s4_posts :
    storagePosts s4StorageUnit 0 [100, -100, 100, -100] = [0, -50, 0, -50] := by
  simp only [storagePosts, s4_step_charge, s4_step_discharge]
  norm_num

/-- C1 (counterexample): the claim's scenario-S4 prediction is false.  Under
the spec's own dispatch rules (section 4.2, symmetric `√η` split), the
pre-storage profile `[+100, -100, +100, -100]` with `η = 0.5`,
`charge_rate = discharge_rate = 100` and `charge_capacity = 100` yields the
post-storage profile `[0, -50, 0, -50]`, not `[+50, -50, +50, -50]`: in the
first hour the whole 100 MW surplus is absorbed by charging, so the
post-storage net capacity there is 0, not +50. -/
theorem c1_counterexample :
    ¬ storagePosts s4StorageUnit 0 [100, -100, 100, -100] = [50, -50, 50, -50] := by
  rw [s4_posts]
  simp only [List.cons.injEq]
  norm_num

/-- C1 (amended): storage dispatch splits the round-trip efficiency
symmetrically — each charging hour adds `charged_energy · √η` to the state of
charge with `charged_energy = min(n, charge_rate, charge_capacity - SoC)`, and
each discharging hour removes `discharged_energy_at_bus / √η` with
`discharged_energy_at_bus = min(-n, discharge_rate, SoC · √η)`; for scenario S4
the post-storage net capacity per trial is `[0, -50, 0, -50]`. -/
theorem c1_storage_dispatch (u : StorageUnit) (soc n : Real) :
    (0 ≤ n → soc < u.charge_capacity →
      storageStep u soc n =
        (-(min n (min u.charge_rate (u.charge_capacity - soc))),
          soc + min n (min u.charge_rate (u.charge_capacity - soc)) *
            Real.sqrt u.roundtrip_efficiency)) ∧
    (n < 0 → 0 < soc →
      storageStep u soc n =
        (min (-n) (min u.discharge_rate (soc * Real.sqrt u.roundtrip_efficiency)),
          soc - min (-n) (min u.discharge_rate (soc * Real.sqrt u.roundtrip_efficiency)) /
            Real.sqrt u.roundtrip_efficiency)) ∧
    storagePosts s4StorageUnit 0 [100, -100, 100, -100] = [0, -50, 0, -50] := by
  refine ⟨?_, ?_, s4_posts⟩
  · intro hn hsoc
    unfold storageStep
    rw [if_pos hn, if_pos hsoc]
  · intro hn hsoc
    unfold storageStep
    rw [if_neg (not_le.mpr hn), if_pos hsoc]

/-- C1 (witness): the charging equation applied to the first hour of S4. -/
theorem c1_storage_dispatch_witness :
    storageStep s4StorageUnit 0 100 =
      (-(min 100 (min s4StorageUnit.charge_rate (s4StorageUnit.charge_capacity - 0))),
        0 + min 100 (min s4StorageUnit.charge_rate (s4StorageUnit.charge_capacity - 0)) *
          Real.sqrt s4StorageUnit.roundtrip_efficiency) :=
  (c1_storage_dispatch s4StorageUnit 0 100).1 (by norm_num) (by norm_num [s4StorageUnit])

/-- C3: for every storage unit satisfying the section 3 invariants and every
pre-storage profile (the profile of any trial over any simulation window;
each dispatch run starts from an empty state of charge), the state of charge
stays within `[0, charge_capacity]` at every hour, and the total energy
discharged at the bus is at most the total energy charged times the round-trip
efficiency. -/
theorem c3_storage_invariants (u : StorageUnit) (p : List Real) (hu : validStorage u) :
    (∀ x ∈ storageSocs u 0 p, 0 ≤ x ∧ x ≤ u.charge_capacity) ∧
      totalDischarged u 0 p ≤ u.roundtrip_efficiency * totalCharged u 0 p :=
  ⟨storageSocs_mem hu p 0 le_rfl hu.2.2.1, storage_energy_conservation hu p⟩

/-- C3 (witness): the invariants instantiated at a concrete valid unit and
profile. -/
theorem c3_storage_invariants_witness :
    validStorage (⟨0, 10, 5, 5, 10, 1⟩ : StorageUnit) ∧
      ((∀ x ∈ storageSocs ⟨0, 10, 5, 5, 10, 1⟩ 0 [3, -4], 0 ≤ x ∧
          x ≤ (⟨0, 10, 5, 5, 10, 1⟩ : StorageUnit).charge_capacity) ∧
        totalDischarged ⟨0, 10, 5, 5, 10, 1⟩ 0 [3, -4] ≤
          (⟨0, 10, 5, 5, 10, 1⟩ : StorageUnit).roundtrip_efficiency *
            totalCharged ⟨0, 10, 5, 5, 10, 1⟩ 0 [3, -4]) :=
  ⟨by norm_num [validStorage],
    c3_storage_invariants ⟨0, 10, 5, 5, 10, 1⟩ [3, -4] (by norm_num [validStorage])⟩

/-- C2: the simulator is a pure function of the energy system and the
configuration `(start_hour, end_hour, trial_size, seed)` — the pseudo-random
stream is derived from the seed alone — so two runs on the same system whose
configurations agree on those four fields produce identical net hourly
capacity matrices. -/
theorem c2_determinism (sys : List EnergyUnit) (cfg₁ cfg₂ : SimulationConfig)
    (hs : cfg₁.start_hour = cfg₂.start_hour) (he : cfg₁.end_hour = cfg₂.end_hour)
    (ht : cfg₁.trial_size = cfg₂.trial_size) (hd : cfg₁.seed = cfg₂.seed) :
    runSimulation sys cfg₁ = runSimulation sys cfg₂ := by
  obtain ⟨s1, e1, t1, d1⟩ := cfg₁
  obtain ⟨s2, e2, t2, d2⟩ := cfg₂
  simp only at hs he ht hd
  subst hs; subst he; subst ht; subst hd
  rfl

/-- C2 (witness): two runs with literally equal configurations. -/
theorem c2_determinism_witness :
    runSimulation [] ⟨0, 2, 1, 7⟩ = runSimulation [] ⟨0, 2, 1, 7⟩ :=
  c2_determinism [] ⟨0, 2, 1, 7⟩ ⟨0, 2, 1, 7⟩ rfl rfl rfl rfl

/-- C9: `add_unit` fails with `duplicateId` exactly when some registered unit
already carries the new unit's id, `remove_unit` fails with `unknownId` when no
registered unit carries the requested id, and in both failure cases the
builder state after the call is the unchanged unit list. -/
theorem c9_builder_errors (b : List EnergyUnit) (u : EnergyUnit) (i : Nat) :
    ((∃ v ∈ b, unitId v = unitId u) →
      add_unit b u = (Except.error BuilderError.duplicateId, b)) ∧
    ((¬ ∃ v ∈ b, unitId v = i) →
      remove_unit b i = (Except.error BuilderError.unknownId, b)) := by
  constructor
  · intro h
    unfold add_unit
    rw [if_pos]
    simp only [List.any_eq_true, decide_eq_true_eq]
    exact h
  · intro h
    unfold remove_unit
    rw [if_neg]
    simp only [List.any_eq_true, decide_eq_true_eq]
    exact h

/-- C9 (witness): a duplicate-id insertion and an unknown-id removal on a
concrete one-unit builder, both leaving the builder unchanged. -/
theorem c9_builder_errors_witness :
    add_unit [EnergyUnit.demand ⟨0, []⟩] (EnergyUnit.demand ⟨0, [1]⟩) =
        (Except.error BuilderError.duplicateId, [EnergyUnit.demand ⟨0, []⟩]) ∧
      remove_unit [EnergyUnit.demand ⟨0, []⟩] 5 =
        (Except.error BuilderError.unknownId, [EnergyUnit.demand ⟨0, []⟩]) :=
  ⟨(c9_builder_errors [EnergyUnit.demand ⟨0, []⟩] (EnergyUnit.demand ⟨0, [1]⟩) 5).1
      ⟨EnergyUnit.demand ⟨0, []⟩, by simp, rfl⟩,
    (c9_builder_errors [EnergyUnit.demand ⟨0, []⟩] (EnergyUnit.demand ⟨0, [1]⟩) 5).2
      (by simp [unitId])⟩

lemma loadUnit_saveUnit (u : EnergyUnit) : loadUnit (saveUnit u) = some u := by
  cases u <;> rfl

lemma loadSystem_saveSystem (sys : List EnergyUnit) :
    loadSystem (saveSystem sys) = some sys := by
  unfold loadSystem saveSystem
  rw [if_pos rfl]
  induction sys with
  | nil => rfl
  | cons u us ih => simp only [List.map_cons, List.mapM_cons, loadUnit_saveUnit, ih,
      Option.bind_eq_bind, Option.some_bind, Option.pure_def]

/-- C8: loading a saved copy of any energy system succeeds and reconstructs a
system whose simulation, for any configuration (window, trial size, seed), has
a net hourly capacity matrix identical to the original system's. -/
theorem c8_persistence_roundtrip (sys : List EnergyUnit) (cfg : SimulationConfig) :
    ∃ sys₂, loadSystem (saveSystem sys) = some sys₂ ∧
      runSimulation sys₂ cfg = runSimulation sys cfg :=
  ⟨sys, loadSystem_saveSystem sys, rfl⟩

/-! Helper lemmas about the metric reductions. -/

lemma trialMean_eq_zero {f : List Real → Real} {M : List (List Real)}
    (h : ∀ col ∈ M, f col = 0) : trialMean f M = 0 := by
  unfold trialMean
  rw [List.sum_eq_zero, zero_div]
  intro y hy
  obtain ⟨col, hc, rfl⟩ := List.mem_map.mp hy
  exact h col hc

lemma getD_nonneg {l : List Real} (h : ∀ x ∈ l, 0 ≤ x) (i : Nat) : 0 ≤ l.getD i 0 := by
  rcases lt_or_ge i l.length with hi | hi
  · rw [List.getD_eq_getElem l 0 hi]
    exact h _ (List.getElem_mem hi)
  · rw [List.getD_eq_default l 0 hi]

lemma unservedEnergy_eq_zero {col : List Real} (h : ∀ x ∈ col, 0 ≤ x) :
    unservedEnergy col = 0 := by
  unfold unservedEnergy
  rw [List.sum_eq_zero]
  intro y hy
  obtain ⟨x, hx, rfl⟩ := List.mem_map.mp hy
  exact max_eq_left (neg_nonpos_of_nonneg (h x hx))

lemma isShort_false {x : Real} (h : 0 ≤ x) : isShort x = false := by
  unfold isShort
  rw [if_neg (not_lt.mpr h)]

lemma lossHours_eq_zero {col : List Real} (h : ∀ x ∈ col, 0 ≤ x) :
    lossHours col = 0 := by
  unfold lossHours
  rw [List.countP_eq_zero]
  intro x hx
  simp [isShort_false (h x hx)]

lemma shortfallDays_eq_empty {start : Nat} {col : List Real} (h : ∀ x ∈ col, 0 ≤ x) :
    shortfallDays start col = ∅ := by
  unfold shortfallDays
  rw [Finset.filter_eq_empty_iff.mpr, Finset.image_empty]
  intro i _
  exact not_lt.mpr (getD_nonneg h i)

lemma runStarts_eq_zero {bs : List Bool} (h : ∀ b ∈ bs, b = false) :
    ∀ prev, runStarts prev bs = 0 := by
  induction bs with
  | nil => intro prev; rfl
  | cons b bs ih =>
      intro prev
      rw [runStarts, if_neg, ih (fun x hx => h x (List.mem_cons_of_mem b hx))]
      intro hc
      exact absurd (h b (List.mem_cons_self b bs) ▸ hc.1) (by simp)

lemma lossEvents_eq_zero {col : List Real} (h : ∀ x ∈ col, 0 ≤ x) :
    lossEvents col = 0 := by
  unfold lossEvents
  apply runStarts_eq_zero
  intro b hb
  obtain ⟨x, hx, rfl⟩ := List.mem_map.mp hb
  exact isShort_false (h x hx)

/-- C6: expected unserved energy is the mean over trials of the sum over hours
of `max 0 (-NCM entry)`, and for all four metrics only strictly negative
entries count as shortfall — a matrix whose entries are all nonnegative
(zeros included) has all four metrics equal to 0. -/
theorem c6_eue_and_strict_shortfall (start : Nat) (M : List (List Real)) :
    expectedUnservedEnergy M =
        (M.map (fun col => (col.map (fun x => max 0 (-x))).sum)).sum / (M.length : Real) ∧
      ((∀ col ∈ M, ∀ x ∈ col, 0 ≤ x) →
        expectedUnservedEnergy M = 0 ∧ lossOfLoadHours M = 0 ∧
          lossOfLoadDays start M = 0 ∧ lossOfLoadFrequency M = 0) := by
  constructor
  · rfl
  · intro h
    refine ⟨?_, ?_, ?_, ?_⟩
    · exact trialMean_eq_zero (fun col hc => unservedEnergy_eq_zero (h col hc))
    · exact trialMean_eq_zero (fun col hc => by rw [lossHours_eq_zero (h col hc)]; norm_num)
    · exact trialMean_eq_zero (fun col hc => by
        rw [shortfallDays_eq_empty (h col hc)]; norm_num)
    · exact trialMean_eq_zero (fun col hc => by rw [lossEvents_eq_zero (h col hc)]; norm_num)

/-- C6 (witness): a concrete matrix with a zero entry contributes no shortfall
to any of the four metrics. -/
theorem c6_eue_and_strict_shortfall_witness :
    expectedUnservedEnergy [[0, 1]] = 0 ∧ lossOfLoadHours [[0, 1]] = 0 ∧
      lossOfLoadDays 0 [[0, 1]] = 0 ∧ lossOfLoadFrequency [[0, 1]] = 0 :=
  (c6_eue_and_strict_shortfall 0 [[0, 1]]).2 (by
    intro col hc x hx
    simp only [List.mem_cons, List.not_mem_nil, or_false] at hc
    subst hc
    simp only [List.mem_cons, List.not_mem_nil, or_false] at hx
    rcases hx with rfl | rfl <;> norm_num)

/-- C5: loss-of-load frequency is the mean over trials of the number of
maximal runs of consecutive shortfall hours of each trial column; and a
single-trial run over an 11-hour window whose shortfall hours are exactly
positions `{3,4,5,9,10}` has `LOLH = 5` and `LOLF = 2`. -/
theorem c5_lolf_event_runs (M : List (List Real)) (col : List Real)
    (hlen : col.length = 11)
    (hshort : ∀ h, h < 11 →
      (col.getD h 0 < 0 ↔ h = 3 ∨ h = 4 ∨ h = 5 ∨ h = 9 ∨ h = 10)) :
    lossOfLoadFrequency M =
        (M.map (fun c => (lossEvents c : Real))).sum / (M.length : Real) ∧
      lossOfLoadHours [col] = 5 ∧ lossOfLoadFrequency [col] = 2 := by
  refine ⟨rfl, ?_⟩
  rcases col with _ | ⟨a0, col⟩; · simp at hlen
  rcases col with _ | ⟨a1, col⟩; · simp at hlen
  rcases col with _ | ⟨a2, col⟩; · simp at hlen
  rcases col with _ | ⟨a3, col⟩; · simp at hlen
  rcases col with _ | ⟨a4, col⟩; · simp at hlen
  rcases col with _ | ⟨a5, col⟩; · simp at hlen
  rcases col with _ | ⟨a6, col⟩; · simp at hlen
  rcases col with _ | ⟨a7, col⟩; · simp at hlen
  rcases col with _ | ⟨a8, col⟩; · simp at hlen
  rcases col with _ | ⟨a9, col⟩; · simp at hlen
  rcases col with _ | ⟨a10, col⟩; · simp at hlen
  obtain rfl : col = [] := by simpa using hlen
  have h0 := hshort 0 (by norm_num)
  have h1 := hshort 1 (by norm_num)
  have h2 := hshort 2 (by norm_num)
  have h3 := hshort 3 (by norm_num)
  have h4 := hshort 4 (by norm_num)
  have h5 := hshort 5 (by norm_num)
  have h6 := hshort 6 (by norm_num)
  have h7 := hshort 7 (by norm_num)
  have h8 := hshort 8 (by norm_num)
  have h9 := hshort 9 (by norm_num)
  have h10 := hshort 10 (by norm_num)
  simp only [List.getD_cons_zero, List.getD_cons_succ] at h0 h1 h2 h3 h4 h5 h6 h7 h8 h9 h10
  norm_num at h0 h1 h2 h3 h4 h5 h6 h7 h8 h9 h10
  have s0 : isShort a0 = false := isShort_false h0
  have s1 : isShort a1 = false := isShort_false h1
  have s2 : isShort a2 = false := isShort_false h2
  have s3 : isShort a3 = true := by unfold isShort; rw [if_pos h3]
  have s4 : isShort a4 = true := by unfold isShort; rw [if_pos h4]
  have s5 : isShort a5 = true := by unfold isShort; rw [if_pos h5]
  have s6 : isShort a6 = false := isShort_false h6
  have s7 : isShort a7 = false := isShort_false h7
  have s8 : isShort a8 = false := isShort_false h8
  have s9 : isShort a9 = true := by unfold isShort; rw [if_pos h9]
  have s10 : isShort a10 = true := by unfold isShort; rw [if_pos h10]
  constructor
  · simp [lossOfLoadHours, trialMean, lossHours, List.countP_cons,
      s0, s1, s2, s3, s4, s5, s6, s7, s8, s9, s10]
  · simp [lossOfLoadFrequency, trialMean, lossEvents, runStarts,
      s0, s1, s2, s3, s4, s5, s6, s7, s8, s9, s10]

/-- C5 (witness): the concrete single-trial column
`[1,1,1,-1,-1,-1,1,1,1,-1,-1]`, whose shortfall hours are exactly
`{3,4,5,9,10}`. -/
theorem c5_lolf_event_runs_witness :
    lossOfLoadHours [[1, 1, 1, -1, -1, -1, 1, 1, 1, -1, -1]] = 5 ∧
      lossOfLoadFrequency [[1, 1, 1, -1, -1, -1, 1, 1, 1, -1, -1]] = 2 :=
  (c5_lolf_event_runs [[1, 1, 1, -1, -1, -1, 1, 1, 1, -1, -1]]
      [1, 1, 1, -1, -1, -1, 1, 1, 1, -1, -1] (by norm_num)
      (by
        intro h hh
        interval_cases h <;>
          simp only [List.getD_cons_zero, List.getD_cons_succ] <;> norm_num)).2

lemma sum_map_add_distrib {α : Type} (l : List α) (f g : α → Real) :
    (l.map (fun x => f x + g x)).sum = (l.map f).sum + (l.map g).sum := by
  induction l with
  | nil => simp
  | cons a t ih => simp only [List.map_cons, List.sum_cons, ih]; ring

lemma sum_map_div {α : Type} (l : List α) (f : α → Real) (c : Real) :
    (l.map (fun x => f x / c)).sum = (l.map f).sum / c := by
  induction l with
  | nil => simp
  | cons a t ih => simp only [List.map_cons, List.sum_cons, ih, add_div]

lemma sum_range_getD (f : Real → Real) :
    ∀ c : List Real,
      ((List.range c.length).map (fun h => f (c.getD h 0))).sum = (c.map f).sum := by
  intro c
  induction c with
  | nil => simp
  | cons a t ih =>
      rw [List.length_cons, List.range_succ_eq_map]
      simp only [List.map_cons, List.getD_cons_zero, List.map_map, List.sum_cons]
      have hcomp :
          ((fun h => f ((a :: t).getD h 0)) ∘ Nat.succ) = fun h => f (t.getD h 0) := by
        funext h
        simp [Function.comp, List.getD_cons_succ]
      rw [hcomp, ih]

lemma hourly_risk_core (H : Nat) :
    ∀ M : List (List Real), (∀ col ∈ M, col.length = H) →
      ((List.range H).map
          (fun h => (M.map (fun col => max 0 (-(col.getD h 0)))).sum)).sum
        = (M.map unservedEnergy).sum := by
  intro M
  induction M with
  | nil => simp
  | cons c M ih =>
      intro h
      simp only [List.map_cons, List.sum_cons]
      rw [sum_map_add_distrib, ih (fun col hc => h col (List.mem_cons_of_mem c hc))]
      congr 1
      have hc : c.length = H := h c (List.mem_cons_self c M)
      rw [← hc]
      exact sum_range_getD (fun x => max 0 (-x)) c

/-- C10: on a net hourly capacity matrix with at least one trial whose columns
all have the same hour count, the notebook helper `get_hourly_risk` returns at
each hour the sum over trials of `max 0 (-NCM entry)` divided by the trial
count; every returned value is nonnegative, and the values sum over hours to
the expected unserved energy of the same matrix. -/
theorem c10_get_hourly_risk (M : List (List Real)) (H : Nat) (hM : M ≠ [])
    (hlen : ∀ col ∈ M, col.length = H) :
    (∀ r ∈ get_hourly_risk M, 0 ≤ r) ∧
      (get_hourly_risk M).sum = expectedUnservedEnergy M := by
  constructor
  · intro r hr
    unfold get_hourly_risk at hr
    obtain ⟨h, _, rfl⟩ := List.mem_map.mp hr
    refine div_nonneg (List.sum_nonneg ?_) (Nat.cast_nonneg _)
    intro y hy
    obtain ⟨col, _, rfl⟩ := List.mem_map.mp hy
    exact le_max_left 0 _
  · unfold get_hourly_risk expectedUnservedEnergy trialMean
    rw [sum_map_div]
    congr 1
    have hH : (M.headD []).length = H := by
      rcases M with _ | ⟨c, M'⟩
      · exact absurd rfl hM
      · exact hlen c (List.mem_cons_self c M')
    rw [hH]
    exact hourly_risk_core H M hlen

/-- C10 (witness): the concrete one-trial matrix `[[1, -2]]`. -/
theorem c10_get_hourly_risk_witness :
    (∀ r ∈ get_hourly_risk [[1, -2]], 0 ≤ r) ∧
      (get_hourly_risk [[1, -2]]).sum = expectedUnservedEnergy [[1, -2]] :=
  c10_get_hourly_risk [[1, -2]] 2 (by simp)
    (by intro col hc; simp only [List.mem_cons, List.not_mem_nil, or_false] at hc;
        subst hc; rfl)

lemma elccBisect_bounds (f : Real → Real) (baseMetric tol prec : Real) :
    ∀ (n : Nat) (lo hi : Real), lo ≤ hi →
      lo ≤ elccBisect f baseMetric tol prec n lo hi ∧
        elccBisect f baseMetric tol prec n lo hi ≤ hi := by
  intro n
  induction n with
  | zero =>
      intro lo hi hlh
      unfold elccBisect
      constructor <;> [linarith; linarith]
  | succ n ih =>
      intro lo hi hlh
      unfold elccBisect
      split
      · constructor <;> [linarith; linarith]
      · split
        · have hmid : lo ≤ (lo + hi) / 2 := by linarith
          obtain ⟨h1, h2⟩ := ih lo ((lo + hi) / 2) hmid
          exact ⟨h1, le_trans h2 (by linarith)⟩
        · split
          · have hmid : (lo + hi) / 2 ≤ hi := by linarith
            obtain ⟨h1, h2⟩ := ih ((lo + hi) / 2) hi hmid
            exact ⟨le_trans (by linarith) h1, h2⟩
          · constructor <;> [linarith; linarith]

/-- C7: for every base system, simulation template, metric, tolerance,
precision, iteration bound and additional system with nonnegative non-demand
nameplate sum, the value returned by `elccEvaluate` lies between 0 and the
non-demand nameplate sum of the additional system (the bisection's initial
`lo` and `hi`), and if the combined metric at `hi` is already at most the base
metric, `hi` itself is returned. -/
theorem c7_elcc_bounds (base : List EnergyUnit) (cfg : SimulationConfig)
    (metric : List (List Real) → Real) (tol prec : Real) (maxIters : Nat)
    (additional : List EnergyUnit) (hnp : 0 ≤ additionalNameplate additional) :
    0 ≤ elccEvaluate base cfg metric tol prec maxIters additional ∧
      elccEvaluate base cfg metric tol prec maxIters additional ≤
        additionalNameplate additional ∧
      (elccMetric metric base additional cfg (additionalNameplate additional) ≤
          metric (runSimulation base cfg) →
        elccEvaluate base cfg metric tol prec maxIters additional =
          additionalNameplate additional) := by
  unfold elccEvaluate
  by_cases hcond : elccMetric metric base additional cfg (additionalNameplate additional) ≤
      metric (runSimulation base cfg)
  · rw [if_pos hcond]
    exact ⟨hnp, le_rfl, fun _ => rfl⟩
  · rw [if_neg hcond]
    obtain ⟨h1, h2⟩ := elccBisect_bounds (elccMetric metric base additional cfg)
      (metric (runSimulation base cfg)) tol prec maxIters 0
      (additionalNameplate additional) hnp
    exact ⟨h1, h2, fun hc => absurd hc hcond⟩

/-- C7 (witness): the bounds at a concrete 1 MW static additional system. -/
theorem c7_elcc_bounds_witness :
    0 ≤ elccEvaluate [] ⟨0, 1, 1, 0⟩ expectedUnservedEnergy 0 (1/100) 20
        [EnergyUnit.static ⟨0, 1, [1]⟩] ∧
      elccEvaluate [] ⟨0, 1, 1, 0⟩ expectedUnservedEnergy 0 (1/100) 20
          [EnergyUnit.static ⟨0, 1, [1]⟩] ≤
        additionalNameplate [EnergyUnit.static ⟨0, 1, [1]⟩] ∧
      (elccMetric expectedUnservedEnergy [] [EnergyUnit.static ⟨0, 1, [1]⟩] ⟨0, 1, 1, 0⟩
          (additionalNameplate [EnergyUnit.static ⟨0, 1, [1]⟩]) ≤
          expectedUnservedEnergy (runSimulation [] ⟨0, 1, 1, 0⟩) →
        elccEvaluate [] ⟨0, 1, 1, 0⟩ expectedUnservedEnergy 0 (1/100) 20
            [EnergyUnit.static ⟨0, 1, [1]⟩] =
          additionalNameplate [EnergyUnit.static ⟨0, 1, [1]⟩]) :=
  c7_elcc_bounds [] ⟨0, 1, 1, 0⟩ expectedUnservedEnergy 0 (1/100) 20
    [EnergyUnit.static ⟨0, 1, [1]⟩]
    (by norm_num [additionalNameplate, nameplateOf])

/-! Monotonicity of the metrics in the pointwise order on net capacity
matrices (a pointwise lower matrix has more shortfall). -/

lemma forall₂_getD {R : Real → Real → Prop} :
    ∀ {l₁ l₂ : List Real}, List.Forall₂ R l₁ l₂ →
      ∀ i, i < l₁.length → R (l₁.getD i 0) (l₂.getD i 0) := by
  intro l₁ l₂ h
  induction h with
  | nil => intro i hi; simp at hi
  | @cons a b t₁ t₂ hab htail ih =>
      intro i hi
      cases i with
      | zero => simpa using hab
      | succ j =>
          simp only [List.getD_cons_succ]
          exact ih j (by simpa using hi)

lemma forall₂_map_same {α β : Type} {R : β → β → Prop} (l : List α) (f g : α → β)
    (h : ∀ a ∈ l, R (f a) (g a)) : List.Forall₂ R (l.map f) (l.map g) := by
  induction l with
  | nil => exact List.Forall₂.nil
  | cons a t ih =>
      exact List.Forall₂.cons (h a (List.mem_cons_self a t))
        (ih (fun x hx => h x (List.mem_cons_of_mem a hx)))

lemma trialMean_anti {f : List Real → Real}
    (hf : ∀ {c₁ c₂ : List Real}, List.Forall₂ (· ≤ ·) c₁ c₂ → f c₂ ≤ f c₁)
    {M₁ M₂ : List (List Real)} (h : List.Forall₂ (List.Forall₂ (· ≤ ·)) M₁ M₂) :
    trialMean f M₂ ≤ trialMean f M₁ := by
  unfold trialMean
  rw [← h.length_eq]
  refine div_le_div_of_nonneg_right ?_ (Nat.cast_nonneg _)
  induction h with
  | nil => exact le_rfl
  | cons hcol htail ih =>
      simp only [List.map_cons, List.sum_cons]
      exact add_le_add (hf hcol) ih

lemma unservedEnergy_anti {c₁ c₂ : List Real} (h : List.Forall₂ (· ≤ ·) c₁ c₂) :
    unservedEnergy c₂ ≤ unservedEnergy c₁ := by
  unfold unservedEnergy
  induction h with
  | nil => exact le_rfl
  | cons hab htail ih =>
      simp only [List.map_cons, List.sum_cons]
      exact add_le_add (max_le_max le_rfl (neg_le_neg hab)) ih

lemma lossHours_anti {c₁ c₂ : List Real} (h : List.Forall₂ (· ≤ ·) c₁ c₂) :
    lossHours c₂ ≤ lossHours c₁ := by
  unfold lossHours
  induction h with
  | nil => exact le_rfl
  | @cons a b t₁ t₂ hab htail ih =>
      rw [List.countP_cons, List.countP_cons]
      refine Nat.add_le_add ih ?_
      by_cases hb : b < 0
      · have hsb : isShort b = true := by unfold isShort; rw [if_pos hb]
        have hsa : isShort a = true := by
          unfold isShort; rw [if_pos (lt_of_le_of_lt hab hb)]
        simp [hsb, hsa]
      · have hsb : isShort b = false := by unfold isShort; rw [if_neg hb]
        simp [hsb]

lemma shortfallDays_subset {start : Nat} {c₁ c₂ : List Real}
    (h : List.Forall₂ (· ≤ ·) c₁ c₂) :
    shortfallDays start c₂ ⊆ shortfallDays start c₁ := by
  unfold shortfallDays
  intro day hday
  simp only [Finset.mem_image, Finset.mem_filter, Finset.mem_range] at hday ⊢
  obtain ⟨i, ⟨hi, hneg⟩, rfl⟩ := hday
  have hi' : i < c₁.length := by rw [h.length_eq]; exact hi
  exact ⟨i, ⟨hi', lt_of_le_of_lt (forall₂_getD h i hi') hneg⟩, rfl⟩

lemma expectedUnservedEnergy_anti {M₁ M₂ : List (List Real)}
    (h : List.Forall₂ (List.Forall₂ (· ≤ ·)) M₁ M₂) :
    expectedUnservedEnergy M₂ ≤ expectedUnservedEnergy M₁ :=
  trialMean_anti (fun hc => unservedEnergy_anti hc) h

lemma lossOfLoadHours_anti {M₁ M₂ : List (List Real)}
    (h : List.Forall₂ (List.Forall₂ (· ≤ ·)) M₁ M₂) :
    lossOfLoadHours M₂ ≤ lossOfLoadHours M₁ :=
  trialMean_anti (fun hc => Nat.cast_le.mpr (lossHours_anti hc)) h

lemma lossOfLoadDays_anti {start : Nat} {M₁ M₂ : List (List Real)}
    (h : List.Forall₂ (List.Forall₂ (· ≤ ·)) M₁ M₂) :
    lossOfLoadDays start M₂ ≤ lossOfLoadDays start M₁ :=
  trialMean_anti
    (fun hc => Nat.cast_le.mpr (Finset.card_le_card (shortfallDays_subset hc))) h

/-! Adding a demand (resp. nonnegative static) unit lowers (resp. raises) the
net hourly capacity matrix pointwise, storage dispatch included. -/

lemma mem_insertById {x s : StorageUnit} :
    ∀ {l : List StorageUnit}, x ∈ insertById s l ↔ x = s ∨ x ∈ l := by
  intro l
  induction l with
  | nil => simp [insertById]
  | cons t ts ih =>
      unfold insertById
      split
      · simp [List.mem_cons]
      · simp only [List.mem_cons, ih]
        tauto

lemma mem_sortById {x : StorageUnit} : ∀ {l : List StorageUnit}, x ∈ sortById l ↔ x ∈ l := by
  intro l
  induction l with
  | nil => simp [sortById]
  | cons t ts ih =>
      unfold sortById at ih ⊢
      rw [List.foldr_cons, mem_insertById, ih, List.mem_cons]

lemma dispatchStorages_mono (stors : List StorageUnit)
    (hv : ∀ u ∈ stors, validStorage u) :
    ∀ {c₁ c₂ : List Real}, List.Forall₂ (· ≤ ·) c₁ c₂ →
      List.Forall₂ (· ≤ ·) (dispatchStorages stors c₁) (dispatchStorages stors c₂) := by
  induction stors with
  | nil => intro c₁ c₂ h; exact h
  | cons u rest ih =>
      intro c₁ c₂ h
      unfold dispatchStorages
      rw [List.foldl_cons, List.foldl_cons]
      have hu : validStorage u := hv u (List.mem_cons_self u rest)
      exact ih (fun v hvv => hv v (List.mem_cons_of_mem u hvv))
        (storagePosts_mono hu h le_rfl le_rfl hu.2.2.1)

lemma runSimulation_append_demand_le (sys : List EnergyUnit) (cfg : SimulationConfig)
    (d : DemandUnit) (hv : ValidSystem sys) (hd : ∀ x ∈ d.hourly_demand, 0 ≤ x) :
    List.Forall₂ (List.Forall₂ (· ≤ ·))
      (runSimulation (sys ++ [EnergyUnit.demand d]) cfg) (runSimulation sys cfg) := by
  unfold runSimulation
  apply forall₂_map_same
  intro t _
  unfold simulationColumn
  have hstor : storageUnitsOf (sys ++ [EnergyUnit.demand d]) = storageUnitsOf sys := by
    simp [storageUnitsOf, List.filterMap_append]
  rw [hstor]
  apply dispatchStorages_mono _ (fun v hvv => hv v (mem_sortById.mp hvv))
  unfold preStorageColumn
  apply forall₂_map_same
  intro h _
  simp only [List.map_append, List.sum_append, List.map_cons, List.map_nil,
    List.sum_cons, List.sum_nil, add_zero]
  have h0 := getD_nonneg hd h
  have hcontrib : unitContribution cfg.seed t h (EnergyUnit.demand d) =
      -(d.hourly_demand.getD h 0) := rfl
  rw [hcontrib]
  linarith

lemma runSimulation_append_static_ge (sys : List EnergyUnit) (cfg : SimulationConfig)
    (st : StaticUnit) (hv : ValidSystem sys) (hs : ∀ x ∈ st.hourly_capacity, 0 ≤ x) :
    List.Forall₂ (List.Forall₂ (· ≤ ·))
      (runSimulation sys cfg) (runSimulation (sys ++ [EnergyUnit.static st]) cfg) := by
  unfold runSimulation
  apply forall₂_map_same
  intro t _
  unfold simulationColumn
  have hstor : storageUnitsOf (sys ++ [EnergyUnit.static st]) = storageUnitsOf sys := by
    simp [storageUnitsOf, List.filterMap_append]
  rw [hstor]
  apply dispatchStorages_mono _ (fun v hvv => hv v (mem_sortById.mp hvv))
  unfold preStorageColumn
  apply forall₂_map_same
  intro h _
  simp only [List.map_append, List.sum_append, List.map_cons, List.map_nil,
    List.sum_cons, List.sum_nil, add_zero]
  have h0 := getD_nonneg hs h
  have hcontrib : unitContribution cfg.seed t h (EnergyUnit.static st) =
      st.hourly_capacity.getD h 0 := rfl
  rw [hcontrib]
  linarith

/-- C4 (counterexample): the claim fails for LossOfLoadFrequency in both
directions, and fails for a DemandUnit with negative demand even for
ExpectedUnservedEnergy.  Adding a constant 2 MW demand unit to a system whose
single-trial net profile is `[-1, +1, -1]` merges two shortfall runs into one
(LOLF drops 2 → 1); adding a constant 2 MW static unit to a system with
profile `[-3, -1, -3]` splits one run into two (LOLF rises 1 → 2); adding a
demand unit with demand `-5` raises the net profile and lowers EUE. -/
theorem c4_counterexample :
    lossOfLoadFrequency (runSimulation
        ([EnergyUnit.demand ⟨0, [1, 0, 1]⟩, EnergyUnit.static ⟨1, 1, [0, 1, 0]⟩] ++
          [EnergyUnit.demand ⟨2, [2, 2, 2]⟩]) ⟨0, 3, 1, 0⟩) <
      lossOfLoadFrequency (runSimulation
        [EnergyUnit.demand ⟨0, [1, 0, 1]⟩, EnergyUnit.static ⟨1, 1, [0, 1, 0]⟩]
        ⟨0, 3, 1, 0⟩) ∧
    lossOfLoadFrequency (runSimulation [EnergyUnit.demand ⟨0, [3, 1, 3]⟩] ⟨0, 3, 1, 0⟩) <
      lossOfLoadFrequency (runSimulation
        ([EnergyUnit.demand ⟨0, [3, 1, 3]⟩] ++ [EnergyUnit.static ⟨1, 2, [2, 2, 2]⟩])
        ⟨0, 3, 1, 0⟩) ∧
    expectedUnservedEnergy (runSimulation
        ([EnergyUnit.demand ⟨0, [1]⟩] ++ [EnergyUnit.demand ⟨1, [-5]⟩]) ⟨0, 1, 1, 0⟩) <
      expectedUnservedEnergy (runSimulation [EnergyUnit.demand ⟨0, [1]⟩] ⟨0, 1, 1, 0⟩) := by
  have hr1 : List.range 1 = [0] := rfl
  have hr3 : List.range 3 = [0, 1, 2] := rfl
  have e1 : runSimulation
      ([EnergyUnit.demand ⟨0, [1, 0, 1]⟩, EnergyUnit.static ⟨1, 1, [0, 1, 0]⟩] ++
        [EnergyUnit.demand ⟨2, [2, 2, 2]⟩]) ⟨0, 3, 1, 0⟩ = [[-3, -1, -3]] := by
    norm_num [runSimulation, simulationColumn, storageUnitsOf, sortById, dispatchStorages,
      preStorageColumn, unitContribution, numHours, hr1, hr3]
  have e2 : runSimulation
      [EnergyUnit.demand ⟨0, [1, 0, 1]⟩, EnergyUnit.static ⟨1, 1, [0, 1, 0]⟩]
      ⟨0, 3, 1, 0⟩ = [[-1, 1, -1]] := by
    norm_num [runSimulation, simulationColumn, storageUnitsOf, sortById, dispatchStorages,
      preStorageColumn, unitContribution, numHours, hr1, hr3]
  have e3 : runSimulation [EnergyUnit.demand ⟨0, [3, 1, 3]⟩] ⟨0, 3, 1, 0⟩ =
      [[-3, -1, -3]] := by
    norm_num [runSimulation, simulationColumn, storageUnitsOf, sortById, dispatchStorages,
      preStorageColumn, unitContribution, numHours, hr1, hr3]
  have e4 : runSimulation
      ([EnergyUnit.demand ⟨0, [3, 1, 3]⟩] ++ [EnergyUnit.static ⟨1, 2, [2, 2, 2]⟩])
      ⟨0, 3, 1, 0⟩ = [[-1, 1, -1]] := by
    norm_num [runSimulation, simulationColumn, storageUnitsOf, sortById, dispatchStorages,
      preStorageColumn, unitContribution, numHours, hr1, hr3]
  have e5 : runSimulation
      ([EnergyUnit.demand ⟨0, [1]⟩] ++ [EnergyUnit.demand ⟨1, [-5]⟩]) ⟨0, 1, 1, 0⟩ =
      [[4]] := by
    norm_num [runSimulation, simulationColumn, storageUnitsOf, sortById, dispatchStorages,
      preStorageColumn, unitContribution, numHours, hr1]
  have e6 : runSimulation [EnergyUnit.demand ⟨0, [1]⟩] ⟨0, 1, 1, 0⟩ = [[-1]] := by
    norm_num [runSimulation, simulationColumn, storageUnitsOf, sortById, dispatchStorages,
      preStorageColumn, unitContribution, numHours, hr1]
  have m1 : lossOfLoadFrequency [[-3, -1, -3]] = 1 := by
    norm_num [lossOfLoadFrequency, trialMean, lossEvents, runStarts, isShort]
  have m2 : lossOfLoadFrequency [[-1, 1, -1]] = 2 := by
    norm_num [lossOfLoadFrequency, trialMean, lossEvents, runStarts, isShort]
  have m3 : expectedUnservedEnergy [[4]] = 0 := by
    norm_num [expectedUnservedEnergy, trialMean, unservedEnergy]
  have m4 : expectedUnservedEnergy [[-1]] = 1 := by
    norm_num [expectedUnservedEnergy, trialMean, unservedEnergy]
  rw [e1, e2, e3, e4, e5, e6, m1, m2, m3, m4]
  norm_num

/-- C4 (amended): for every energy system whose storage units satisfy the
section 3 invariants, and fixed seed, adding any DemandUnit with nonnegative
demand weakly increases EUE, LOLH and LOLD, and adding any StaticUnit with
nonnegative capacity weakly decreases EUE, LOLH and LOLD; LOLF is excluded
(it can move in either direction), and the nonnegativity of the added demand
is required. -/
theorem c4_metric_monotonicity (sys : List EnergyUnit) (cfg : SimulationConfig)
    (d : DemandUnit) (st : StaticUnit) (hv : ValidSystem sys)
    (hd : ∀ x ∈ d.hourly_demand, 0 ≤ x) (hs : ∀ x ∈ st.hourly_capacity, 0 ≤ x) :
    (expectedUnservedEnergy (runSimulation sys cfg) ≤
        expectedUnservedEnergy (runSimulation (sys ++ [EnergyUnit.demand d]) cfg) ∧
      lossOfLoadHours (runSimulation sys cfg) ≤
        lossOfLoadHours (runSimulation (sys ++ [EnergyUnit.demand d]) cfg) ∧
      lossOfLoadDays cfg.start_hour (runSimulation sys cfg) ≤
        lossOfLoadDays cfg.start_hour (runSimulation (sys ++ [EnergyUnit.demand d]) cfg)) ∧
    (expectedUnservedEnergy (runSimulation (sys ++ [EnergyUnit.static st]) cfg) ≤
        expectedUnservedEnergy (runSimulation sys cfg) ∧
      lossOfLoadHours (runSimulation (sys ++ [EnergyUnit.static st]) cfg) ≤
        lossOfLoadHours (runSimulation sys cfg) ∧
      lossOfLoadDays cfg.start_hour (runSimulation (sys ++ [EnergyUnit.static st]) cfg) ≤
        lossOfLoadDays cfg.start_hour (runSimulation sys cfg)) := by
  have hD := runSimulation_append_demand_le sys cfg d hv hd
  have hS := runSimulation_append_static_ge sys cfg st hv hs
  exact ⟨⟨expectedUnservedEnergy_anti hD, lossOfLoadHours_anti hD, lossOfLoadDays_anti hD⟩,
    ⟨expectedUnservedEnergy_anti hS, lossOfLoadHours_anti hS, lossOfLoadDays_anti hS⟩⟩

/-- C4 (witness): the amended monotonicity at a concrete storage-free system
with a 1 MW demand addition and a 1 MW static addition. -/
theorem c4_metric_monotonicity_witness :
    (expectedUnservedEnergy (runSimulation [] ⟨0, 1, 1, 0⟩) ≤
        expectedUnservedEnergy
          (runSimulation ([] ++ [EnergyUnit.demand ⟨0, [1]⟩]) ⟨0, 1, 1, 0⟩) ∧
      lossOfLoadHours (runSimulation [] ⟨0, 1, 1, 0⟩) ≤
        lossOfLoadHours (runSimulation ([] ++ [EnergyUnit.demand ⟨0, [1]⟩]) ⟨0, 1, 1, 0⟩) ∧
      lossOfLoadDays (0 : Nat) (runSimulation [] ⟨0, 1, 1, 0⟩) ≤
        lossOfLoadDays (0 : Nat)
          (runSimulation ([] ++ [EnergyUnit.demand ⟨0, [1]⟩]) ⟨0, 1, 1, 0⟩)) ∧
    (expectedUnservedEnergy (runSimulation ([] ++ [EnergyUnit.static ⟨1, 1, [1]⟩]) ⟨0, 1, 1, 0⟩) ≤
        expectedUnservedEnergy (runSimulation [] ⟨0, 1, 1, 0⟩) ∧
      lossOfLoadHours (runSimulation ([] ++ [EnergyUnit.static ⟨1, 1, [1]⟩]) ⟨0, 1, 1, 0⟩) ≤
        lossOfLoadHours (runSimulation [] ⟨0, 1, 1, 0⟩) ∧
      lossOfLoadDays (0 : Nat)
          (runSimulation ([] ++ [EnergyUnit.static ⟨1, 1, [1]⟩]) ⟨0, 1, 1, 0⟩) ≤
        lossOfLoadDays (0 : Nat) (runSimulation [] ⟨0, 1, 1, 0⟩)) :=
  c4_metric_monotonicity [] ⟨0, 1, 1, 0⟩ ⟨0, [1]⟩ ⟨1, 1, [1]⟩
    (by intro su hsu; simp [storageUnitsOf] at hsu)
    (by intro x hx; simp only [List.mem_singleton] at hx; subst hx; norm_num)
    (by intro x hx; simp only [List.mem_singleton] at hx; subst hx; norm_num)

end Assetra

